import Mathlib

/-!
# Verified embedding of the mapCrawler core

A shallow embedding, in Lean 4, of the algorithmic core of the mapCrawler
repository (grid generation, place scoring and deduplication, the spatial
cache lookup, the search orchestration, name extraction, and the master
index loader), together with theorems settling the specification claims
against it.

Python floats are idealised as exact rationals (for the grid, whose
arithmetic is plain + and *) or as real numbers (for the scoring formulas,
which use sqrt, cos and real exponentiation).  Fallible steps are modelled
with `Option`/`Except`; the external collaborators (Playwright, the regex
engine, Azure blob storage) enter as function parameters.
-/

namespace MapCrawler

/-! ## Grid generator: `map_crawler/utils.py`, `generate_lat_long_grid` -/

/-- The Python iteration `range(-grid_radius, grid_radius + 1)` as a list of
integers. -/
def rangeClosed (r : ℕ) : List ℤ :=
  (List.range (2 * r + 1)).map (fun k : ℕ => (k : ℤ) - (r : ℤ))

/-- The inner comprehension `[k * step for k in range(-grid_radius, grid_radius + 1)]`. -/
def stepMultiples (step : ℚ) (r : ℕ) : List ℚ :=
  (rangeClosed r).map (fun k : ℤ => (k : ℚ) * step)

/-- `map_crawler.utils.generate_lat_long_grid`: the row-major grid
`[(center_lat + i, center_lon + j) for i in scaled lat steps for j in scaled lon steps]`. -/
def generate_lat_long_grid (center_lat center_lon lat_step lon_step : ℚ)
    (grid_radius : ℕ) : List (ℚ × ℚ) :=
  (stepMultiples lat_step grid_radius).flatMap (fun i =>
    (stepMultiples lon_step grid_radius).map (fun j => (center_lat + i, center_lon + j)))

theorem length_flatMap_map_const {α β γ : Type} (xs : List α) (ys : List β) (f : α → β → γ) :
    (xs.flatMap (fun x => ys.map (f x))).length = xs.length * ys.length := by
  induction xs with
  | nil => simp
  | cons x xs ih => simp [List.flatMap_cons, ih, Nat.succ_mul, Nat.add_comm]

theorem getElem?_flatMap_map {α β γ : Type} (xs : List α) (ys : List β) (f : α → β → γ)
    (i j : ℕ) (hi : i < xs.length) (hj : j < ys.length) :
    (xs.flatMap (fun x => ys.map (f x)))[i * ys.length + j]? =
      some (f (xs.get ⟨i, hi⟩) (ys.get ⟨j, hj⟩)) := by
  induction xs generalizing i with
  | nil => simp at hi
  | cons x xs ih =>
    rw [List.flatMap_cons]
    cases i with
    | zero =>
      rw [List.getElem?_append_left (by simpa using hj)]
      simp [List.getElem?_eq_getElem hj]
    | succ i' =>
      have hi' : i' < xs.length := by simpa using Nat.lt_of_succ_lt_succ hi
      have harith : (i' + 1) * ys.length + j =
          (List.map (f x) ys).length + (i' * ys.length + j) := by
        rw [List.length_map]; ring
      rw [harith, List.getElem?_append_right (Nat.le_add_right _ _), Nat.add_sub_cancel_left]
      simpa using ih i' hi'

theorem rangeClosed_length (r : ℕ) : (rangeClosed r).length = 2 * r + 1 := by
  rw [rangeClosed, List.length_map, List.length_range]

theorem stepMultiples_length (step : ℚ) (r : ℕ) :
    (stepMultiples step r).length = 2 * r + 1 := by
  rw [stepMultiples, List.length_map, rangeClosed_length]

theorem stepMultiples_get (step : ℚ) (r i : ℕ) (hi : i < 2 * r + 1) :
    (stepMultiples step r).get ⟨i, by rw [stepMultiples_length]; exact hi⟩ =
      ((i : ℤ) - (r : ℤ)) * step := by
  simp only [stepMultiples, rangeClosed, List.map_map, List.get_eq_getElem,
    List.getElem_map, List.getElem_range, Function.comp_apply]
  push_cast
  ring

theorem generate_grid_getElem (center_lat center_lon lat_step lon_step : ℚ) (r i j : ℕ)
    (hi : i < 2 * r + 1) (hj : j < 2 * r + 1) :
    (generate_lat_long_grid center_lat center_lon lat_step lon_step r)[i * (2 * r + 1) + j]? =
      some (center_lat + ((i : ℤ) - (r : ℤ)) * lat_step,
            center_lon + ((j : ℤ) - (r : ℤ)) * lon_step) := by
  have hi' : i < (stepMultiples lat_step r).length := by rw [stepMultiples_length]; exact hi
  have hj' : j < (stepMultiples lon_step r).length := by rw [stepMultiples_length]; exact hj
  have hmain := getElem?_flatMap_map (stepMultiples lat_step r) (stepMultiples lon_step r)
      (fun a b => (center_lat + a, center_lon + b)) i j hi' hj'
  rw [generate_lat_long_grid]
  rw [show 2 * r + 1 = (stepMultiples lon_step r).length from (stepMultiples_length _ _).symm]
  rw [hmain, stepMultiples_get lat_step r i hi, stepMultiples_get lon_step r j hj]

/-- C8: for every center, positive step sizes and radius `r ≥ 0`, the grid
generator returns exactly `(2r+1)²` points, namely `center + (i·latStep, j·lonStep)`
for all integer `i, j ∈ [−r, r]` in row-major order (position `(i+r)·(2r+1)+(j+r)`);
the center itself is always included, and `r = 0` yields exactly the center. -/
theorem grid_generator_spec (center_lat center_lon lat_step lon_step : ℚ) (r : ℕ)
    (hlat : 0 < lat_step) (hlon : 0 < lon_step) :
    (generate_lat_long_grid center_lat center_lon lat_step lon_step r).length = (2 * r + 1) ^ 2 ∧
    (∀ i j : ℕ, i < 2 * r + 1 → j < 2 * r + 1 →
      (generate_lat_long_grid center_lat center_lon lat_step lon_step r)[i * (2 * r + 1) + j]? =
        some (center_lat + ((i : ℤ) - (r : ℤ)) * lat_step,
              center_lon + ((j : ℤ) - (r : ℤ)) * lon_step)) ∧
    (center_lat, center_lon) ∈ generate_lat_long_grid center_lat center_lon lat_step lon_step r ∧
    (r = 0 → generate_lat_long_grid center_lat center_lon lat_step lon_step r =
      [(center_lat, center_lon)]) := by
  refine ⟨?_, ?_, ?_, ?_⟩
  · rw [generate_lat_long_grid, length_flatMap_map_const, stepMultiples_length,
      stepMultiples_length, sq]
  · exact fun i j hi hj => generate_grid_getElem center_lat center_lon lat_step lon_step r i j hi hj
  · have h := generate_grid_getElem center_lat center_lon lat_step lon_step r r r
      (by omega) (by omega)
    have hc : (center_lat + ((r : ℤ) - (r : ℤ)) * lat_step,
        center_lon + ((r : ℤ) - (r : ℤ)) * lon_step) = (center_lat, center_lon) := by
      norm_num
    rw [hc] at h
    rcases List.getElem?_eq_some.1 h with ⟨hlt, hval⟩
    exact hval ▸ List.getElem_mem _
  · intro hr
    subst hr
    simp [generate_lat_long_grid, stepMultiples, rangeClosed, List.range_succ]

/-- C8 witness: the theorem applied at center `(1, 2)`, unit steps and radius 1. -/
theorem grid_generator_spec_witness :
    (0 : ℚ) < 1 ∧
    ((generate_lat_long_grid 1 2 1 1 1).length = (2 * 1 + 1) ^ 2 ∧
    (∀ i j : ℕ, i < 2 * 1 + 1 → j < 2 * 1 + 1 →
      (generate_lat_long_grid 1 2 1 1 1)[i * (2 * 1 + 1) + j]? =
        some ((1 : ℚ) + ((i : ℤ) - (1 : ℤ)) * 1, (2 : ℚ) + ((j : ℤ) - (1 : ℤ)) * 1)) ∧
    ((1 : ℚ), (2 : ℚ)) ∈ generate_lat_long_grid 1 2 1 1 1 ∧
    ((1 : ℕ) = 0 → generate_lat_long_grid 1 2 1 1 1 = [((1 : ℚ), (2 : ℚ))])) :=
  ⟨by norm_num, grid_generator_spec 1 2 1 1 1 (by norm_num) (by norm_num)⟩

/-! ## Data model: `map_crawler/models.py`

`Place` carries the fields set by `GoogleMapsScraper._extract_place_data`;
the pydantic model validates `rating ≥ 0` and `raters ≥ 0` at construction,
which the theorems carry as hypotheses (resp. encode by using `ℕ`). -/

structure Place where
  description : String
  rating : ℝ
  raters : ℕ
  latitude : ℝ
  longitude : ℝ
  price : Option ℝ
  review_url : Option String := none
  img_links : List String := []

/-- One row of the DataFrame produced by `GoogleMapsScraper._process_results`. -/
structure ScoredPlace where
  description : String
  rating : ℝ
  raters : ℕ
  latitude : ℝ
  longitude : ℝ
  scaled_rating : ℝ
  dist : ℝ
  scaled_dist_rating : ℝ
  price : ℝ
  vfm : ℝ
  composite : ℝ

/-! ## Scorer: `map_crawler/backend/scraper.py`, `GoogleMapsScraper._process_results`

Float arithmetic is idealised over `ℝ`; the numerals `1.25`, `111.3188`,
`-11.1`, `0.001` are the constants `_RATING_PENALTY_BASE`,
`_KM_PER_DEGREE_LAT`, `_DIST_DECAY_FACTOR` and the epsilon of the code. -/

/-- `drop_duplicates(subset=["description", "rating", "raters", "latitude", "longitude"])`
compares rows on exactly these five columns. -/
def dedupKey (p : Place) : String × ℝ × ℕ × ℝ × ℝ :=
  (p.description, p.rating, p.raters, p.latitude, p.longitude)

/-- pandas `drop_duplicates` with `keep="first"` (the default): keep a row iff
its key has not occurred earlier. -/
noncomputable def dropDupAux (seen : List (String × ℝ × ℕ × ℝ × ℝ)) :
    List Place → List Place
  | [] => []
  | p :: rest =>
    if dedupKey p ∈ seen then dropDupAux seen rest
    else p :: dropDupAux (dedupKey p :: seen) rest

noncomputable def dropDuplicates (l : List Place) : List Place := dropDupAux [] l

/-- `rating * (1 - _RATING_PENALTY_BASE ** (-sqrt(raters)))` (real exponentiation). -/
noncomputable def scaledRating (rating : ℝ) (raters : ℕ) : ℝ :=
  rating * (1 - (1.25 : ℝ) ^ (-(Real.sqrt (raters : ℝ))))

/-- `_KM_PER_DEGREE_LAT`. -/
def kmPerDegreeLat : ℝ := 111.3188

/-- `sqrt(lat_diff_km ** 2 + lng_diff_km ** 2)` with `np.radians(center_lat)`
in the longitude cosine. -/
noncomputable def distKm (lat lon centerLat centerLon : ℝ) : ℝ :=
  Real.sqrt (((lat - centerLat) * kmPerDegreeLat) ^ 2 +
    ((lon - centerLon) * Real.cos (centerLat * Real.pi / 180) * kmPerDegreeLat) ^ 2)

/-- `scaled_rating * (1 - _RATING_PENALTY_BASE ** (_DIST_DECAY_FACTOR / (dist + 0.001)))`. -/
noncomputable def scaledDistRating (sr d : ℝ) : ℝ :=
  sr * (1 - (1.25 : ℝ) ^ ((-11.1 : ℝ) / (d + 0.001)))

/-- Python `int(...)` truncates toward zero. -/
noncomputable def truncToInt (v : ℝ) : ℤ := if 0 ≤ v then ⌊v⌋ else ⌈v⌉

/-- `df["price"].fillna(1).astype(int)` followed by `x if x > 0 else 1`. -/
noncomputable def normPrice (p : Option ℝ) : ℝ :=
  let v : ℤ := truncToInt (p.getD 1)
  if 0 < v then (v : ℝ) else 1

/-- The per-row numeric columns of `_process_results` computed after
deduplication (`vfm` and `composite` are initialised to 0). -/
noncomputable def mkScored (centerLat centerLon : ℝ) (p : Place) : ScoredPlace :=
  let sr := scaledRating p.rating p.raters
  let d := distKm p.latitude p.longitude centerLat centerLon
  { description := p.description
    rating := p.rating
    raters := p.raters
    latitude := p.latitude
    longitude := p.longitude
    scaled_rating := sr
    dist := d
    scaled_dist_rating := scaledDistRating sr d
    price := normPrice p.price
    vfm := 0
    composite := 0 }

/-- pandas `Series.median`: sort ascending; middle element for odd length,
mean of the two middle elements for even length.  (The empty series has no
median; our pipeline only takes medians of non-empty columns, and the `0`
returned here falls on the same side of every `> 0` guard as pandas' NaN.) -/
noncomputable def median (l : List ℝ) : ℝ :=
  let s := List.insertionSort (· ≤ ·) l
  if l.length = 0 then 0
  else if l.length % 2 = 1 then s.getD (l.length / 2) 0
  else (s.getD (l.length / 2 - 1) 0 + s.getD (l.length / 2) 0) / 2

/-- `df["vfm"] = relative_rating * relative_price_inverse`, one row. -/
noncomputable def setVfm (msr mp : ℝ) (r : ScoredPlace) : ScoredPlace :=
  { r with vfm := (r.scaled_rating / msr) * (Real.sqrt mp / Real.sqrt r.price) }

/-- `df["composite"] = relative_rating * relative_vfm`, one row. -/
noncomputable def setComposite (msr mv : ℝ) (r : ScoredPlace) : ScoredPlace :=
  { r with composite := (r.scaled_rating / msr) * (Real.sqrt r.vfm / Real.sqrt mv) }

/-- The deduplicated frame with its per-row numeric columns. -/
noncomputable def dedupBase (places : List Place) (centerLat centerLon : ℝ) :
    List ScoredPlace :=
  (dropDuplicates places).map (mkScored centerLat centerLon)

/-- `median_scaled_rating = df["scaled_rating"].median()`. -/
noncomputable def medianSR (places : List Place) (centerLat centerLon : ℝ) : ℝ :=
  median ((dedupBase places centerLat centerLon).map (fun r => r.scaled_rating))

/-- `median_price = df["price"].median()` (after price normalization). -/
noncomputable def medianPrice (places : List Place) (centerLat centerLon : ℝ) : ℝ :=
  median ((dedupBase places centerLat centerLon).map (fun r => r.price))

/-- The frame after the `vfm` column is filled in. -/
noncomputable def vfmList (places : List Place) (centerLat centerLon : ℝ) :
    List ScoredPlace :=
  (dedupBase places centerLat centerLon).map
    (setVfm (medianSR places centerLat centerLon) (medianPrice places centerLat centerLon))

/-- `median_vfm = df["vfm"].median()`. -/
noncomputable def medianVfm (places : List Place) (centerLat centerLon : ℝ) : ℝ :=
  median ((vfmList places centerLat centerLon).map (fun r => r.vfm))

/-- `GoogleMapsScraper._process_results`: deduplicate, compute the per-row
columns, then fill `vfm` and `composite` under the median guards.  (On an
empty input every branch yields `[]`, matching the early
`if not places: return pd.DataFrame()`.) -/
noncomputable def processResults (places : List Place) (centerLat centerLon : ℝ) :
    List ScoredPlace :=
  if 0 < medianSR places centerLat centerLon ∧ 0 < medianPrice places centerLat centerLon then
    if 0 < medianVfm places centerLat centerLon then
      (vfmList places centerLat centerLon).map
        (setComposite (medianSR places centerLat centerLon) (medianVfm places centerLat centerLon))
    else vfmList places centerLat centerLon
  else dedupBase places centerLat centerLon

/-- Every output row of the scorer originates from a deduplicated input place,
and the `vfm`/`composite` stages leave the per-row columns untouched. -/
theorem processResults_shape {places : List Place} {cl cg : ℝ} {r : ScoredPlace}
    (hr : r ∈ processResults places cl cg) :
    ∃ p ∈ dropDuplicates places,
      r.description = p.description ∧ r.rating = p.rating ∧ r.raters = p.raters ∧
      r.latitude = p.latitude ∧ r.longitude = p.longitude ∧
      r.scaled_rating = scaledRating p.rating p.raters ∧
      r.dist = distKm p.latitude p.longitude cl cg ∧
      r.scaled_dist_rating =
        scaledDistRating (scaledRating p.rating p.raters) (distKm p.latitude p.longitude cl cg) ∧
      r.price = normPrice p.price := by
  rw [processResults] at hr
  split at hr
  · split at hr
    · rw [vfmList, dedupBase] at hr
      simp only [List.map_map, List.mem_map] at hr
      obtain ⟨p, hp, rfl⟩ := hr
      exact ⟨p, hp, by simp [setComposite, setVfm, mkScored]⟩
    · rw [vfmList, dedupBase] at hr
      simp only [List.map_map, List.mem_map] at hr
      obtain ⟨p, hp, rfl⟩ := hr
      exact ⟨p, hp, by simp [setVfm, mkScored]⟩
  · rw [dedupBase] at hr
    simp only [List.mem_map] at hr
    obtain ⟨p, hp, rfl⟩ := hr
    exact ⟨p, hp, by simp [mkScored]⟩

/-- C2: every row of a scored result set has
`scaled_rating = rating × (1 − 1.25^(−√raters))`, and `raters = 0` forces
`scaled_rating = 0` whatever the rating. -/
theorem scorer_scaled_rating_formula (places : List Place) (cl cg : ℝ)
    (r : ScoredPlace) (hr : r ∈ processResults places cl cg) :
    r.scaled_rating = r.rating * (1 - (1.25 : ℝ) ^ (-(Real.sqrt (r.raters : ℝ)))) ∧
    (r.raters = 0 → r.scaled_rating = 0) := by
  obtain ⟨p, _, _, hrat, hraters, _, _, hsr, _⟩ := processResults_shape hr
  constructor
  · rw [hsr, hrat, hraters, scaledRating]
  · intro h0
    rw [hsr, hraters] at *
    rw [h0, scaledRating]
    simp

/-- C5: for fixed non-negative rating (the pydantic `Place` model validates
`rating ≥ 0`), scaled rating is monotonically non-decreasing in the rater
count, and never exceeds the raw rating. -/
theorem scaled_rating_monotone_and_bounded (rating : ℝ) (hrat : 0 ≤ rating) :
    (∀ r1 r2 : ℕ, r1 ≤ r2 → scaledRating rating r1 ≤ scaledRating rating r2) ∧
    (∀ n : ℕ, scaledRating rating n ≤ rating) := by
  constructor
  · intro r1 r2 h12
    rw [scaledRating, scaledRating]
    apply mul_le_mul_of_nonneg_left _ hrat
    apply sub_le_sub_left
    rw [Real.rpow_le_rpow_left_iff (by norm_num : (1 : ℝ) < 1.25)]
    apply neg_le_neg
    exact Real.sqrt_le_sqrt (by exact_mod_cast h12)
  · intro n
    rw [scaledRating]
    apply mul_le_of_le_one_right hrat
    have hpow : (0 : ℝ) ≤ (1.25 : ℝ) ^ (-(Real.sqrt (n : ℝ))) :=
      Real.rpow_nonneg (by norm_num) _
    linarith

/-- C5 witness: the theorem at rating 3, with monotonicity read off at
rater counts 4 ≤ 9 and the bound at 4 raters. -/
theorem scaled_rating_monotone_and_bounded_witness :
    (0 : ℝ) ≤ 3 ∧ scaledRating 3 4 ≤ scaledRating 3 9 ∧ scaledRating 3 4 ≤ 3 := by
  have h := scaled_rating_monotone_and_bounded 3 (by norm_num)
  exact ⟨by norm_num, h.1 4 9 (by norm_num), h.2 4⟩

theorem median_singleton (x : ℝ) : median [x] = x := by
  simp [median, List.insertionSort, List.orderedInsert]

theorem dropDuplicates_singleton (p : Place) : dropDuplicates [p] = [p] := by
  simp [dropDuplicates, dropDupAux]

theorem dedupBase_singleton (p : Place) (cl cg : ℝ) :
    dedupBase [p] cl cg = [mkScored cl cg p] := by
  rw [dedupBase, dropDuplicates_singleton, List.map_singleton]

theorem medianSR_singleton (p : Place) (cl cg : ℝ) :
    medianSR [p] cl cg = scaledRating p.rating p.raters := by
  rw [medianSR, dedupBase_singleton, List.map_singleton]
  exact median_singleton _

theorem medianPrice_singleton (p : Place) (cl cg : ℝ) :
    medianPrice [p] cl cg = normPrice p.price := by
  rw [medianPrice, dedupBase_singleton, List.map_singleton]
  exact median_singleton _

/-- When the lone scaled rating is 0, both median guards fail and the scorer
returns the base frame. -/
theorem processResults_singleton_sr_zero (p : Place) (cl cg : ℝ)
    (h : scaledRating p.rating p.raters = 0) :
    processResults [p] cl cg = [mkScored cl cg p] := by
  rw [processResults, if_neg, dedupBase_singleton]
  rw [medianSR_singleton, h]
  simp

/-- C2 fixture: a valid `Place` whose rating is 0. -/
def placeRatingZero : Place :=
  { description := "cafe zero"
    rating := 0
    raters := 7
    latitude := 10
    longitude := 20
    price := some 3 }

/-- C2 witness: the formula read off on a concrete one-place scored set. -/
theorem scorer_scaled_rating_formula_witness :
    mkScored 0 0 placeRatingZero ∈ processResults [placeRatingZero] 0 0 ∧
    ((mkScored 0 0 placeRatingZero).scaled_rating =
      (mkScored 0 0 placeRatingZero).rating *
        (1 - (1.25 : ℝ) ^ (-(Real.sqrt ((mkScored 0 0 placeRatingZero).raters : ℝ)))) ∧
    ((mkScored 0 0 placeRatingZero).raters = 0 →
      (mkScored 0 0 placeRatingZero).scaled_rating = 0)) := by
  have hsr0 : scaledRating placeRatingZero.rating placeRatingZero.raters = 0 := by
    rw [scaledRating]
    norm_num [placeRatingZero]
  have hmem : mkScored 0 0 placeRatingZero ∈ processResults [placeRatingZero] 0 0 := by
    rw [processResults_singleton_sr_zero _ _ _ hsr0]
    exact List.mem_singleton_self _
  exact ⟨hmem, scorer_scaled_rating_formula [placeRatingZero] 0 0 _ hmem⟩

/-- The five dedup columns of an output row. -/
def scoredKey (r : ScoredPlace) : String × ℝ × ℕ × ℝ × ℝ :=
  (r.description, r.rating, r.raters, r.latitude, r.longitude)

theorem keys_processResults (places : List Place) (cl cg : ℝ) :
    (processResults places cl cg).map scoredKey = (dropDuplicates places).map dedupKey := by
  rw [processResults]
  split
  · split
    · rw [vfmList, dedupBase, List.map_map, List.map_map, List.map_map]
      rfl
    · rw [vfmList, dedupBase, List.map_map, List.map_map]
      rfl
  · rw [dedupBase, List.map_map]
    rfl

theorem dropDupAux_keys (l : List Place) : ∀ seen : List (String × ℝ × ℕ × ℝ × ℝ),
    (∀ k ∈ (dropDupAux seen l).map dedupKey, k ∉ seen) ∧
    ((dropDupAux seen l).map dedupKey).Nodup := by
  induction l with
  | nil => intro seen; simp [dropDupAux]
  | cons p rest ih =>
    intro seen
    by_cases hp : dedupKey p ∈ seen
    · rw [dropDupAux, if_pos hp]
      exact ih seen
    · rw [dropDupAux, if_neg hp]
      have ih' := ih (dedupKey p :: seen)
      refine ⟨?_, ?_⟩
      · intro k hk
        rw [List.map_cons] at hk
        rcases List.mem_cons.1 hk with hk1 | hk2
        · exact hk1 ▸ hp
        · exact fun hks => (ih'.1 k hk2) (List.mem_cons_of_mem _ hks)
      · rw [List.map_cons, List.nodup_cons]
        exact ⟨fun hmem => (ih'.1 _ hmem) (List.mem_cons_self _ _), ih'.2⟩

theorem mem_keys_dropDupAux (l : List Place) : ∀ (seen : List (String × ℝ × ℕ × ℝ × ℝ))
    (p : Place), p ∈ l → dedupKey p ∉ seen →
    dedupKey p ∈ (dropDupAux seen l).map dedupKey := by
  induction l with
  | nil => intro seen p hp _; exact absurd hp (List.not_mem_nil p)
  | cons q rest ih =>
    intro seen p hp hs
    by_cases hq : dedupKey q ∈ seen
    · rw [dropDupAux, if_pos hq]
      rcases List.mem_cons.1 hp with rfl | hrest
      · exact absurd hq hs
      · exact ih seen p hrest hs
    · rw [dropDupAux, if_neg hq, List.map_cons]
      by_cases hk : dedupKey p = dedupKey q
      · exact hk ▸ List.mem_cons_self _ _
      · rcases List.mem_cons.1 hp with rfl | hrest
        · exact absurd rfl hk
        · refine List.mem_cons_of_mem _ (ih _ p hrest ?_)
          intro hmem
          rcases List.mem_cons.1 hmem with h1 | h2
          · exact hk h1
          · exact hs h2

/-- C6: two input `Place` records identical on
`(description, rating, raters, latitude, longitude)` collapse: the scored
output never contains two rows with the same key tuple, and every input
place's key tuple appears on exactly one output row. -/
theorem scorer_dedup_exact (places : List Place) (cl cg : ℝ) (p : Place)
    (hp : p ∈ places) :
    ((processResults places cl cg).map scoredKey).Nodup ∧
    dedupKey p ∈ (processResults places cl cg).map scoredKey := by
  rw [keys_processResults]
  exact ⟨(dropDupAux_keys places []).2,
    mem_keys_dropDupAux places [] p hp (List.not_mem_nil _)⟩

/-- C6 witness: an input list holding the same record twice. -/
theorem scorer_dedup_exact_witness :
    placeRatingZero ∈ [placeRatingZero, placeRatingZero] ∧
    (((processResults [placeRatingZero, placeRatingZero] 0 0).map scoredKey).Nodup ∧
      dedupKey placeRatingZero ∈
        (processResults [placeRatingZero, placeRatingZero] 0 0).map scoredKey) :=
  ⟨List.mem_cons_self _ _,
    scorer_dedup_exact [placeRatingZero, placeRatingZero] 0 0 placeRatingZero
      (List.mem_cons_self _ _)⟩

theorem scaledRating_nonneg {rating : ℝ} (h : 0 ≤ rating) (n : ℕ) :
    0 ≤ scaledRating rating n := by
  rw [scaledRating]
  apply mul_nonneg h
  have hle : (1.25 : ℝ) ^ (-(Real.sqrt (n : ℝ))) ≤ 1 :=
    Real.rpow_le_one_of_one_le_of_nonpos (by norm_num)
      (neg_nonpos.2 (Real.sqrt_nonneg _))
  linarith

theorem one_le_normPrice (p : Option ℝ) : 1 ≤ normPrice p := by
  rw [normPrice]
  split
  · rename_i h
    exact_mod_cast h
  · exact le_refl 1

theorem mem_of_mem_dropDupAux {q : Place} :
    ∀ {seen : List (String × ℝ × ℕ × ℝ × ℝ)} {l : List Place},
      q ∈ dropDupAux seen l → q ∈ l := by
  intro seen l
  induction l generalizing seen with
  | nil => intro h; simpa [dropDupAux] using h
  | cons p rest ih =>
    intro h
    rw [dropDupAux] at h
    split at h
    · exact List.mem_cons_of_mem _ (ih h)
    · rcases List.mem_cons.1 h with rfl | hrest
      · exact List.mem_cons_self _ _
      · exact List.mem_cons_of_mem _ (ih hrest)

/-- C7: scoring is a total function (the embedding raises no division or
domain error on any input, zero raters and zero prices included); every
output row has `vfm ≥ 0` and `composite ≥ 0`; and a missing or non-positive
price is normalized to `1` before any division, so every output price is
at least `1`. -/
theorem scorer_safety (places : List Place) (cl cg : ℝ)
    (hpos : ∀ p ∈ places, 0 ≤ p.rating) (r : ScoredPlace)
    (hr : r ∈ processResults places cl cg) :
    (0 ≤ r.vfm ∧ 0 ≤ r.composite ∧ 1 ≤ r.price) ∧
    normPrice none = 1 ∧ (∀ v : ℝ, v ≤ 0 → normPrice (some v) = 1) := by
  have hnone : normPrice none = 1 := by
    rw [normPrice]
    norm_num [truncToInt]
  have hsome : ∀ v : ℝ, v ≤ 0 → normPrice (some v) = 1 := by
    intro v hv
    have htr : truncToInt v ≤ 0 := by
      rw [truncToInt]
      rcases eq_or_lt_of_le hv with rfl | hvlt
      · simp
      · rw [if_neg (not_le.2 hvlt)]
        exact Int.ceil_le.2 (by exact_mod_cast hv)
    simp only [normPrice, Option.getD_some]
    rw [if_neg (not_lt.2 htr)]
  refine ⟨?_, hnone, hsome⟩
  have hprice : ∀ p : Place, 1 ≤ (mkScored cl cg p).price := fun p => one_le_normPrice p.price
  have hsr : ∀ p ∈ dropDuplicates places, 0 ≤ (mkScored cl cg p).scaled_rating := by
    intro p hp
    exact scaledRating_nonneg (hpos p (mem_of_mem_dropDupAux hp)) _
  rw [processResults] at hr
  split at hr
  · rename_i hguard
    have hvfm_nonneg : ∀ p ∈ dropDuplicates places,
        0 ≤ (setVfm (medianSR places cl cg) (medianPrice places cl cg)
          (mkScored cl cg p)).vfm := by
      intro p hp
      show 0 ≤ ((mkScored cl cg p).scaled_rating / medianSR places cl cg) *
        (Real.sqrt (medianPrice places cl cg) / Real.sqrt (mkScored cl cg p).price)
      apply mul_nonneg
      · exact div_nonneg (hsr p hp) hguard.1.le
      · exact div_nonneg (Real.sqrt_nonneg _) (Real.sqrt_nonneg _)
    split at hr
    · rename_i hmv
      rw [vfmList, dedupBase, List.map_map, List.map_map] at hr
      rcases List.mem_map.1 hr with ⟨p, hp, rfl⟩
      refine ⟨?_, ?_, ?_⟩
      · exact hvfm_nonneg p hp
      · show 0 ≤ ((mkScored cl cg p).scaled_rating / medianSR places cl cg) *
          (Real.sqrt (setVfm (medianSR places cl cg) (medianPrice places cl cg)
            (mkScored cl cg p)).vfm / Real.sqrt (medianVfm places cl cg))
        apply mul_nonneg
        · exact div_nonneg (hsr p hp) hguard.1.le
        · exact div_nonneg (Real.sqrt_nonneg _) (Real.sqrt_nonneg _)
      · exact hprice p
    · rw [vfmList, dedupBase, List.map_map] at hr
      rcases List.mem_map.1 hr with ⟨p, hp, rfl⟩
      exact ⟨hvfm_nonneg p hp, le_refl 0, hprice p⟩
  · rw [dedupBase] at hr
    rcases List.mem_map.1 hr with ⟨p, _, rfl⟩
    exact ⟨le_refl 0, le_refl 0, hprice p⟩

/-- C7 fixture: a valid `Place` with zero raters and zero price. -/
def placeZeroRaters : Place :=
  { description := "zero raters"
    rating := 5
    raters := 0
    latitude := 0
    longitude := 0
    price := some 0 }

/-- C7 witness: the safety bounds on a one-place set with `raters = 0` and
`price = 0`. -/
theorem scorer_safety_witness :
    (∀ p ∈ [placeZeroRaters], 0 ≤ p.rating) ∧
    mkScored 0 0 placeZeroRaters ∈ processResults [placeZeroRaters] 0 0 ∧
    ((0 ≤ (mkScored 0 0 placeZeroRaters).vfm ∧
      0 ≤ (mkScored 0 0 placeZeroRaters).composite ∧
      1 ≤ (mkScored 0 0 placeZeroRaters).price) ∧
    normPrice none = 1 ∧ (∀ v : ℝ, v ≤ 0 → normPrice (some v) = 1)) := by
  have hpos : ∀ p ∈ [placeZeroRaters], 0 ≤ p.rating := by
    intro p hp
    rw [List.mem_singleton.1 hp]
    norm_num [placeZeroRaters]
  have hsr0 : scaledRating placeZeroRaters.rating placeZeroRaters.raters = 0 := by
    rw [scaledRating]
    show (5 : ℝ) * (1 - (1.25 : ℝ) ^ (-(Real.sqrt ((0 : ℕ) : ℝ)))) = 0
    rw [Nat.cast_zero, Real.sqrt_zero, neg_zero, Real.rpow_zero]
    ring
  have hmem : mkScored 0 0 placeZeroRaters ∈ processResults [placeZeroRaters] 0 0 := by
    rw [processResults_singleton_sr_zero _ _ _ hsr0]
    exact List.mem_singleton_self _
  exact ⟨hpos, hmem, scorer_safety [placeZeroRaters] 0 0 hpos _ hmem⟩

/-- C3: `vfm` and `composite` are filled only when the set-wide medians of
`scaled_rating` and `price` are both strictly positive (otherwise both stay 0
on every row); when filled, `vfm = (scaled_rating / median(scaled_rating)) ×
√(median(price) / price)`, and `composite = (scaled_rating /
median(scaled_rating)) × √(vfm / median(vfm))` when `median(vfm) > 0`, else
`composite = 0`. -/
theorem scorer_vfm_composite (places : List Place) (cl cg : ℝ) (r : ScoredPlace)
    (hr : r ∈ processResults places cl cg) :
    (¬(0 < medianSR places cl cg ∧ 0 < medianPrice places cl cg) →
      r.vfm = 0 ∧ r.composite = 0) ∧
    ((0 < medianSR places cl cg ∧ 0 < medianPrice places cl cg) →
      r.vfm = (r.scaled_rating / medianSR places cl cg) *
          Real.sqrt (medianPrice places cl cg / r.price) ∧
      (0 < medianVfm places cl cg →
        r.composite = (r.scaled_rating / medianSR places cl cg) *
          Real.sqrt (r.vfm / medianVfm places cl cg)) ∧
      (¬ 0 < medianVfm places cl cg → r.composite = 0)) := by
  rw [processResults] at hr
  split at hr
  · rename_i hguard
    have hvfm_eq : ∀ p : Place,
        (setVfm (medianSR places cl cg) (medianPrice places cl cg)
          (mkScored cl cg p)).vfm =
        ((mkScored cl cg p).scaled_rating / medianSR places cl cg) *
          Real.sqrt (medianPrice places cl cg / (mkScored cl cg p).price) := by
      intro p
      rw [Real.sqrt_div hguard.2.le]
      rfl
    split at hr
    · rename_i hmv
      rw [vfmList, dedupBase, List.map_map, List.map_map] at hr
      rcases List.mem_map.1 hr with ⟨p, hp, rfl⟩
      refine ⟨fun hc => absurd hguard hc, fun _ => ⟨hvfm_eq p, fun _ => ?_, fun hc => absurd hmv hc⟩⟩
      show ((mkScored cl cg p).scaled_rating / medianSR places cl cg) *
          (Real.sqrt (setVfm (medianSR places cl cg) (medianPrice places cl cg)
            (mkScored cl cg p)).vfm / Real.sqrt (medianVfm places cl cg)) =
        ((mkScored cl cg p).scaled_rating / medianSR places cl cg) *
          Real.sqrt ((setVfm (medianSR places cl cg) (medianPrice places cl cg)
            (mkScored cl cg p)).vfm / medianVfm places cl cg)
      congr 1
      by_cases hv : 0 ≤ (setVfm (medianSR places cl cg) (medianPrice places cl cg)
          (mkScored cl cg p)).vfm
      · rw [Real.sqrt_div hv]
      · push_neg at hv
        rw [Real.sqrt_eq_zero'.2 hv.le, Real.sqrt_eq_zero'.2
          (div_nonpos_of_nonpos_of_nonneg hv.le hmv.le), zero_div]
    · rename_i hmv
      rw [vfmList, dedupBase, List.map_map] at hr
      rcases List.mem_map.1 hr with ⟨p, hp, rfl⟩
      exact ⟨fun hc => absurd hguard hc,
        fun _ => ⟨hvfm_eq p, fun hc => absurd hc hmv, fun _ => rfl⟩⟩
  · rename_i hguard
    rw [dedupBase] at hr
    rcases List.mem_map.1 hr with ⟨p, _, rfl⟩
    exact ⟨fun _ => ⟨rfl, rfl⟩, fun hc => absurd hc hguard⟩

theorem scaledRating_pos {rating : ℝ} (h : 0 < rating) {n : ℕ} (hn : 0 < n) :
    0 < scaledRating rating n := by
  rw [scaledRating]
  apply mul_pos h
  have h1 : (1.25 : ℝ) ^ (-(Real.sqrt (n : ℝ))) < 1 :=
    Real.rpow_lt_one_of_one_lt_of_neg (by norm_num)
      (neg_neg_iff_pos.2 (Real.sqrt_pos.2 (by exact_mod_cast hn)))
  linarith

/-- On a one-place set with positive scaled rating both guards pass, the
lone `vfm` is 1 and the composite column is filled. -/
theorem processResults_singleton_pos (p : Place) (cl cg : ℝ)
    (hsr : 0 < scaledRating p.rating p.raters) :
    processResults [p] cl cg =
      [setComposite (scaledRating p.rating p.raters) 1
        (setVfm (scaledRating p.rating p.raters) (normPrice p.price)
          (mkScored cl cg p))] := by
  have hmp : 0 < normPrice p.price := lt_of_lt_of_le zero_lt_one (one_le_normPrice _)
  have hvfm1 : (setVfm (scaledRating p.rating p.raters) (normPrice p.price)
      (mkScored cl cg p)).vfm = 1 := by
    show ((mkScored cl cg p).scaled_rating / scaledRating p.rating p.raters) *
      (Real.sqrt (normPrice p.price) / Real.sqrt (mkScored cl cg p).price) = 1
    have e1 : (mkScored cl cg p).scaled_rating = scaledRating p.rating p.raters := rfl
    have e2 : (mkScored cl cg p).price = normPrice p.price := rfl
    rw [e1, e2, div_self (ne_of_gt hsr), div_self (Real.sqrt_ne_zero'.mpr hmp), one_mul]
  have hvl : vfmList [p] cl cg =
      [setVfm (scaledRating p.rating p.raters) (normPrice p.price) (mkScored cl cg p)] := by
    rw [vfmList, dedupBase_singleton, medianSR_singleton, medianPrice_singleton,
      List.map_singleton]
  have hmv : medianVfm [p] cl cg = 1 := by
    rw [medianVfm, hvl, List.map_singleton, hvfm1, median_singleton]
  rw [processResults,
    if_pos ⟨by rw [medianSR_singleton]; exact hsr, by rw [medianPrice_singleton]; exact hmp⟩,
    if_pos (by rw [hmv]; exact one_pos)]
  rw [hvl, hmv, medianSR_singleton, List.map_singleton]

/-- C3 fixture: a valid `Place` with positive rating, one rater and price 4. -/
def placePos : Place :=
  { description := "good cafe"
    rating := 4
    raters := 1
    latitude := 0
    longitude := 0
    price := some 4 }

/-- The scored row the pipeline produces for `placePos`. -/
noncomputable def scoredPos : ScoredPlace :=
  setComposite (scaledRating placePos.rating placePos.raters) 1
    (setVfm (scaledRating placePos.rating placePos.raters) (normPrice placePos.price)
      (mkScored 0 0 placePos))

/-- C3 witness: the vfm/composite equations on a concrete one-place scored
set whose median guards all pass. -/
theorem scorer_vfm_composite_witness :
    scoredPos ∈ processResults [placePos] 0 0 ∧
    ((¬(0 < medianSR [placePos] 0 0 ∧ 0 < medianPrice [placePos] 0 0) →
      scoredPos.vfm = 0 ∧ scoredPos.composite = 0) ∧
    ((0 < medianSR [placePos] 0 0 ∧ 0 < medianPrice [placePos] 0 0) →
      scoredPos.vfm = (scoredPos.scaled_rating / medianSR [placePos] 0 0) *
          Real.sqrt (medianPrice [placePos] 0 0 / scoredPos.price) ∧
      (0 < medianVfm [placePos] 0 0 →
        scoredPos.composite = (scoredPos.scaled_rating / medianSR [placePos] 0 0) *
          Real.sqrt (scoredPos.vfm / medianVfm [placePos] 0 0)) ∧
      (¬ 0 < medianVfm [placePos] 0 0 → scoredPos.composite = 0))) := by
  have hsr : 0 < scaledRating placePos.rating placePos.raters :=
    scaledRating_pos (by norm_num [placePos]) (by norm_num [placePos])
  have hmem : scoredPos ∈ processResults [placePos] 0 0 := by
    rw [processResults_singleton_pos placePos 0 0 hsr]
    exact List.mem_singleton_self _
  exact ⟨hmem, scorer_vfm_composite [placePos] 0 0 scoredPos hmem⟩

/-! ## Spatial cache: `map_crawler/backend/service.py`

`SearchIndexEntry` is one row of the master index
(`Search, Latitude, Longitude, Time, Key`); the Azure load and the scrape
call enter `_search_single_tile` as function parameters. -/

structure SearchIndexEntry where
  search : String
  latitude : ℝ
  longitude : ℝ
  time : ℝ
  key : String

/-- `delta_long = delta_lat / max(abs(np.cos(np.radians(lat))), 1e-6)`. -/
noncomputable def lonTolerance (deltaLat lat : ℝ) : ℝ :=
  deltaLat / max |Real.cos (lat * Real.pi / 180)| (1 / 1000000)

/-- The row mask of `_find_cached_key`: exact search-term match and both
coordinates within tolerance. -/
noncomputable def entryMatches (deltaLat : ℝ) (q : String) (lat lng : ℝ)
    (e : SearchIndexEntry) : Prop :=
  e.search = q ∧ |e.latitude - lat| ≤ deltaLat ∧ |e.longitude - lng| ≤ lonTolerance deltaLat lat

noncomputable instance (deltaLat : ℝ) (q : String) (lat lng : ℝ) (e : SearchIndexEntry) :
    Decidable (entryMatches deltaLat q lat lng e) := by
  rw [entryMatches]; infer_instance

/-- `MapCrawlerService._find_cached_key`: `matches.values[0]` takes the key of
the first row (in index order) satisfying the mask; an empty index or an empty
match set yields `None`. -/
noncomputable def findCachedKey (master : List SearchIndexEntry) (deltaLat : ℝ)
    (q : String) (lat lng : ℝ) : Option String :=
  match master with
  | [] => none
  | e :: rest =>
    if entryMatches deltaLat q lat lng e then some e.key
    else findCachedKey rest deltaLat q lat lng

/-- `MapCrawlerService._search_single_tile`: unless `force_refresh`, try the
index; a hit whose stored frame loads and validates is returned with
`cached = True`; any load failure or invalid frame, a miss, or
`force_refresh` falls through to a fresh scrape returned with
`cached = False`.  `loadCache` models `_load_from_cache` plus
`_validate_dataframe` (`none` = exception or invalid), `scrapeResult` models
`scraper.scrape`. -/
noncomputable def searchSingleTile (master : List SearchIndexEntry) (deltaLat : ℝ)
    (loadCache : String → Option (List ScoredPlace)) (scrapeResult : List ScoredPlace)
    (q : String) (lat lng : ℝ) (forceRefresh : Bool) : List ScoredPlace × Bool :=
  if forceRefresh = false then
    match findCachedKey master deltaLat q lat lng with
    | some key =>
      match loadCache key with
      | some df => (df, true)
      | none => (scrapeResult, false)
    | none => (scrapeResult, false)
  else (scrapeResult, false)

theorem findCachedKey_first (deltaLat : ℝ) (q : String) (lat lng : ℝ) :
    ∀ (master : List SearchIndexEntry) (i : ℕ) (hi : i < master.length),
      entryMatches deltaLat q lat lng (master.get ⟨i, hi⟩) →
      (∀ j (hj : j < i), ¬ entryMatches deltaLat q lat lng (master.get ⟨j, hj.trans hi⟩)) →
      findCachedKey master deltaLat q lat lng = some (master.get ⟨i, hi⟩).key := by
  intro master
  induction master with
  | nil => intro i hi; exact absurd hi (by simp)
  | cons e rest ih =>
    intro i hi hm hf
    cases i with
    | zero =>
      rw [findCachedKey]
      exact if_pos hm
    | succ i' =>
      have hne : ¬ entryMatches deltaLat q lat lng e := hf 0 (Nat.succ_pos i')
      rw [findCachedKey, if_neg hne]
      exact ih i' (Nat.lt_of_succ_lt_succ hi) hm
        (fun j hj => hf (j + 1) (Nat.succ_lt_succ hj))

/-- C4: with `forceRefresh` false the cache entry used is the first one (in
index order) whose search term equals the normalized query exactly and whose
coordinates satisfy `|latitude − lat| ≤ latTolerance` and
`|longitude − lon| ≤ latTolerance / max(|cos(lat)|, 1e-6)`; with
`forceRefresh` true the index is never consulted and a fresh crawl is always
performed, whatever the index holds. -/
theorem cache_first_match_and_force_refresh (master : List SearchIndexEntry)
    (deltaLat : ℝ) (q : String) (lat lng : ℝ) (i : ℕ) (hi : i < master.length)
    (hmatch : (master.get ⟨i, hi⟩).search = q ∧
      |(master.get ⟨i, hi⟩).latitude - lat| ≤ deltaLat ∧
      |(master.get ⟨i, hi⟩).longitude - lng| ≤
        deltaLat / max |Real.cos (lat * Real.pi / 180)| (1 / 1000000))
    (hfirst : ∀ j (hj : j < i), ¬ ((master.get ⟨j, hj.trans hi⟩).search = q ∧
      |(master.get ⟨j, hj.trans hi⟩).latitude - lat| ≤ deltaLat ∧
      |(master.get ⟨j, hj.trans hi⟩).longitude - lng| ≤
        deltaLat / max |Real.cos (lat * Real.pi / 180)| (1 / 1000000))) :
    findCachedKey master deltaLat q lat lng = some (master.get ⟨i, hi⟩).key ∧
    (∀ (loadCache : String → Option (List ScoredPlace)) (scrapeResult : List ScoredPlace),
      searchSingleTile master deltaLat loadCache scrapeResult q lat lng true =
        (scrapeResult, false)) ∧
    (∀ (master2 : List SearchIndexEntry) (loadCache : String → Option (List ScoredPlace))
      (scrapeResult : List ScoredPlace),
      searchSingleTile master deltaLat loadCache scrapeResult q lat lng true =
        searchSingleTile master2 deltaLat loadCache scrapeResult q lat lng true) :=
  ⟨findCachedKey_first deltaLat q lat lng master i hi hmatch hfirst,
   fun _ _ => rfl, fun _ _ _ => rfl⟩

/-- C4 fixture: an index whose first row has a different search term and whose
second row matches the query at `(0, 0)` within tolerance `0.022`. -/
def entryOther : SearchIndexEntry :=
  { search := "pizza", latitude := 0, longitude := 0, time := 0, key := "k0" }

noncomputable def entryHit : SearchIndexEntry :=
  { search := "cafe", latitude := 1 / 100, longitude := 1 / 100, time := 0, key := "k1" }

/-- C4 witness: on a two-row index the first matching row (the second row) is
used, and a forced refresh ignores the index. -/
theorem cache_first_match_and_force_refresh_witness :
    findCachedKey [entryOther, entryHit] (22 / 1000) "cafe" 0 0 = some "k1" ∧
    (∀ (loadCache : String → Option (List ScoredPlace)) (scrapeResult : List ScoredPlace),
      searchSingleTile [entryOther, entryHit] (22 / 1000) loadCache scrapeResult
        "cafe" 0 0 true = (scrapeResult, false)) := by
  have hi : (1 : ℕ) < ([entryOther, entryHit] : List SearchIndexEntry).length := by
    norm_num
  have hcos : Real.cos ((0 : ℝ) * Real.pi / 180) = 1 := by
    rw [zero_mul, zero_div, Real.cos_zero]
  have habs : |(1 / 100 : ℝ) - 0| = 1 / 100 := by
    rw [sub_zero, abs_of_nonneg (by norm_num)]
  have hmatch : (([entryOther, entryHit] : List SearchIndexEntry).get ⟨1, hi⟩).search = "cafe" ∧
      |(([entryOther, entryHit] : List SearchIndexEntry).get ⟨1, hi⟩).latitude - 0| ≤ 22 / 1000 ∧
      |(([entryOther, entryHit] : List SearchIndexEntry).get ⟨1, hi⟩).longitude - 0| ≤
        (22 / 1000) / max |Real.cos ((0 : ℝ) * Real.pi / 180)| (1 / 1000000) := by
    refine ⟨rfl, ?_, ?_⟩
    · show |(1 / 100 : ℝ) - 0| ≤ 22 / 1000
      rw [habs]; norm_num
    · show |(1 / 100 : ℝ) - 0| ≤ (22 / 1000) / max |Real.cos ((0 : ℝ) * Real.pi / 180)| (1 / 1000000)
      rw [habs, hcos, abs_one, max_eq_left (by norm_num)]
      norm_num
  have hfirst : ∀ j (hj : j < 1),
      ¬ ((([entryOther, entryHit] : List SearchIndexEntry).get ⟨j, hj.trans hi⟩).search = "cafe" ∧
        |(([entryOther, entryHit] : List SearchIndexEntry).get ⟨j, hj.trans hi⟩).latitude - 0| ≤ 22 / 1000 ∧
        |(([entryOther, entryHit] : List SearchIndexEntry).get ⟨j, hj.trans hi⟩).longitude - 0| ≤
          (22 / 1000) / max |Real.cos ((0 : ℝ) * Real.pi / 180)| (1 / 1000000)) := by
    intro j hj
    have hj0 : j = 0 := Nat.lt_one_iff.1 hj
    subst hj0
    intro hc
    have h1 : ("pizza" : String) = "cafe" := hc.1
    exact absurd h1 (by decide)
  have h := cache_first_match_and_force_refresh [entryOther, entryHit] (22 / 1000)
    "cafe" 0 0 1 hi hmatch hfirst
  exact ⟨h.1, h.2.1⟩

/-! ## Multi-center aggregation: `MapCrawlerService.search_places`

The per-tile loop produces one `(DataFrame, cached)` pair per grid center;
those pairs enter as `tiles`.  After collecting the non-empty frames the
code's final line invokes `self.scraper._process_results_dataframe(final_df,
lat, lng)` (service.py line 135).  `class GoogleMapsScraper` defines no such
attribute — its methods are listed in `googleMapsScraperMethods` — so Python
attribute lookup fails there; the failed lookup is modelled by the
`Except.error` branch. -/

/-- The methods defined by `class GoogleMapsScraper` in
`map_crawler/backend/scraper.py`. -/
def googleMapsScraperMethods : List String :=
  ["__init__", "scrape", "_scroll_results", "_extract_place_data", "_process_results"]

/-- Python attribute lookup on the scraper object. -/
def scraperHasAttr (name : String) : Bool := googleMapsScraperMethods.contains name

/-- `MapCrawlerService.search_places` after the per-tile loop: keep the
non-empty frames, AND together the per-tile cache flags, return early when
nothing was found, and otherwise dispatch the final re-scoring call on the
scraper.  The branch guarded by `scraperHasAttr "_process_results_dataframe"`
is unreachable: the class defines no such method, hence no body exists for it
in the source and the lookup raises `AttributeError`. -/
def searchPlaces (tiles : List (List ScoredPlace × Bool)) :
    Except String (List ScoredPlace × Bool) :=
  let results_list := (tiles.map Prod.fst).filter (fun df => !df.isEmpty)
  let all_cached := tiles.all (fun t => t.snd)
  if results_list.isEmpty then Except.ok ([], all_cached)
  else if scraperHasAttr "_process_results_dataframe" then
    Except.ok (results_list.flatten, all_cached)
  else Except.error "AttributeError: _process_results_dataframe"

/-- C1 (code bug): any multi-center search with at least one non-empty
per-tile result set reaches `self.scraper._process_results_dataframe(...)`,
an attribute `GoogleMapsScraper` never defines, and raises `AttributeError`
instead of returning a deduplicated, re-scored combined set with the
all-cached flag. -/
theorem search_places_attribute_error :
    scraperHasAttr "_process_results_dataframe" = false ∧
    (∀ (r : ScoredPlace) (cached : Bool),
      searchPlaces [([r], cached)] =
        Except.error "AttributeError: _process_results_dataframe") := by
  refine ⟨rfl, fun r cached => ?_⟩
  rfl

/-! ## Name extraction: `HTMLParser._extract_name` and
`GoogleMapsScraper._extract_place_data` -/

/-- Python strings are modelled as `List Char` so that every string
operation of `_extract_name` is structural and fully evaluable.
`str.replace('\\"', '"')`: scan left to right, rewriting each
non-overlapping backslash-quote pair to a quote. -/
def unescapeQuotes : List Char → List Char
  | [] => []
  | [c] => [c]
  | c :: q :: rest =>
    if c = '\\' ∧ q = '"' then '"' :: unescapeQuotes rest
    else c :: unescapeQuotes (q :: rest)

/-- Python `s.split('"')`. -/
def splitOnQuote : List Char → List (List Char)
  | [] => [[]]
  | c :: rest =>
    if c = '"' then [] :: splitOnQuote rest
    else
      match splitOnQuote rest with
      | [] => [[c]]
      | g :: gs => (c :: g) :: gs

/-- The capture groups of `re.findall(r'"([^"]*)"', s)`, read off
`s.split('"')`: quotes pair up left to right, so the fragment between the
(2k+1)-st and the (2k+2)-nd quote is a capture. -/
def quotedOf : List (List Char) → List (List Char)
  | [] => []
  | [_] => []
  | _ :: b :: rest => if rest.isEmpty then [] else b :: quotedOf rest

/-- Python `max(matches, key=len)`: the first element of maximal length. -/
def pickLongest (l : List (List Char)) : Option (List Char) :=
  match l with
  | [] => none
  | x :: xs => some (xs.foldl (fun b m => if m.length > b.length then m else b) x)

/-- Python `str.strip()`: drop leading and trailing whitespace. -/
def stripWs (l : List Char) : List Char :=
  ((l.dropWhile Char.isWhitespace).reverse.dropWhile Char.isWhitespace).reverse

/-- `HTMLParser._extract_name`: join the chunks, unescape `\"`, take the
longest quoted capture if any exists, else strip whitespace and remove the
remaining quote characters (`.replace('"', "")`). -/
def extractName (chunks : List (List Char)) : List Char :=
  let full := unescapeQuotes chunks.flatten
  match pickLongest (quotedOf (splitOnQuote full)) with
  | some m => m
  | none => (stripWs full).filter (fun c => c ≠ '"')

/-- One result card as surfaced by the Playwright collaborator:
the `aria-label` attribute of its place link, its `href`, and its inner text. -/
structure RawEntry where
  ariaLabel : Option String
  href : Option String
  innerText : String

/-- `GoogleMapsScraper._extract_place_data`, with the regex collaborators as
parameters: `ratingSearch` models `_RATING_PATTERN.search` plus a successful
numeric parse of both groups, `priceSearch` models `_PRICE_PATTERN.search`
plus `_parse_price` (`none` when either fails, matching the code's `or 0`),
`coordsSearch` models `_COORDS_PATTERN.search` plus float parse; `none`
leaves the corresponding defaults in place exactly as the code does. -/
noncomputable def extractPlaceData (ratingSearch : String → Option (ℝ × ℕ))
    (priceSearch : String → Option ℤ) (coordsSearch : String → Option (ℝ × ℝ))
    (entry : RawEntry) (defaultLat defaultLng : ℝ) : Option Place :=
  let name := entry.ariaLabel.getD ""
  if name = "" then none
  else
    let rr := (ratingSearch entry.innerText).getD (0, 0)
    let priceVal : ℤ := (priceSearch entry.innerText).getD 0
    let coords :=
      match entry.href with
      | some h => (coordsSearch h).getD (defaultLat, defaultLng)
      | none => (defaultLat, defaultLng)
    some { description := name
           rating := rr.1
           raters := rr.2
           latitude := coords.1
           longitude := coords.2
           price := some (priceVal : ℝ)
           review_url := entry.href
           img_links := [] }

theorem foldl_pick_mem (xs : List (List Char)) (b : List Char) :
    xs.foldl (fun b m => if m.length > b.length then m else b) b ∈ b :: xs := by
  induction xs generalizing b with
  | nil => exact List.mem_singleton_self b
  | cons x xs ih =>
    rw [List.foldl_cons]
    rcases List.mem_cons.1 (ih (if x.length > b.length then x else b)) with h | h
    · rw [h]
      split
      · exact List.mem_cons_of_mem _ (List.mem_cons_self _ _)
      · exact List.mem_cons_self _ _
    · exact List.mem_cons_of_mem _ (List.mem_cons_of_mem _ h)

theorem foldl_pick_ge (xs : List (List Char)) (b : List Char) :
    ∀ m ∈ b :: xs, m.length ≤
      (xs.foldl (fun b m => if m.length > b.length then m else b) b).length := by
  induction xs generalizing b with
  | nil =>
    intro m hm
    rw [List.mem_singleton.1 hm]
    exact le_refl _
  | cons x xs ih =>
    intro m hm
    rw [List.foldl_cons]
    have hb : b.length ≤ (if x.length > b.length then x else b).length := by
      split
      · rename_i h; exact le_of_lt h
      · exact le_refl _
    have hx : x.length ≤ (if x.length > b.length then x else b).length := by
      split
      · exact le_refl _
      · rename_i h; exact le_of_not_lt h
    rcases List.mem_cons.1 hm with rfl | hm'
    · exact le_trans hb (ih _ _ (List.mem_cons_self _ _))
    · rcases List.mem_cons.1 hm' with rfl | hm''
      · exact le_trans hx (ih _ _ (List.mem_cons_self _ _))
      · exact ih _ _ (List.mem_cons_of_mem _ hm'')

/-- C9 counterexample: an entry with no structured label but a quoted name in
its text is skipped outright — the quoted-chunk reconstruction, which would
recover "Cafe One", is never invoked by `_extract_place_data`. -/
theorem extract_name_fallback_never_invoked :
    extractPlaceData (fun _ => none) (fun _ => none) (fun _ => none)
      { ariaLabel := none, href := none, innerText := "\"Cafe One\"" } 0 0 = none ∧
    extractName ["\"Cafe One\"".toList] = "Cafe One".toList := by
  constructor
  · rfl
  · decide

/-- C9 (amended): extraction takes the name only from the structured label
field — an entry is kept iff that label is non-empty, its description is that
label, and no other missing field causes a skip; the fragmented-quoted-chunk
helper `_extract_name` (which selects the longest quoted candidate when
captures exist) is present but not invoked on the extraction path. -/
theorem extract_name_structured_label_only (ratingSearch : String → Option (ℝ × ℕ))
    (priceSearch : String → Option ℤ) (coordsSearch : String → Option (ℝ × ℝ))
    (entry : RawEntry) (defaultLat defaultLng : ℝ) :
    (extractPlaceData ratingSearch priceSearch coordsSearch entry defaultLat defaultLng = none ↔
      entry.ariaLabel.getD "" = "") ∧
    (∀ p, extractPlaceData ratingSearch priceSearch coordsSearch entry defaultLat defaultLng =
        some p → p.description = entry.ariaLabel.getD "") ∧
    (∀ chunks : List (List Char),
      quotedOf (splitOnQuote (unescapeQuotes chunks.flatten)) ≠ [] →
      extractName chunks ∈
        quotedOf (splitOnQuote (unescapeQuotes chunks.flatten)) ∧
      ∀ m ∈ quotedOf (splitOnQuote (unescapeQuotes chunks.flatten)),
        m.length ≤ (extractName chunks).length) := by
  refine ⟨?_, ?_, ?_⟩
  · rw [extractPlaceData]
    constructor
    · intro h
      by_contra hne
      rw [if_neg hne] at h
      exact Option.some_ne_none _ h
    · intro h
      rw [if_pos h]
  · intro p hp
    rw [extractPlaceData] at hp
    split at hp
    · exact absurd hp (Option.some_ne_none _).symm
    · exact (Option.some_injective _ hp).symm ▸ rfl
  · intro chunks hne
    rw [extractName]
    cases hq : quotedOf (splitOnQuote (unescapeQuotes chunks.flatten)) with
    | nil => exact absurd hq hne
    | cons x xs =>
      exact ⟨foldl_pick_mem xs x, foldl_pick_ge xs x⟩

/-- C9 witness: the amended behaviour read off on a concrete labelled entry
and on concrete quoted chunks (where the longest capture wins). -/
theorem extract_name_structured_label_only_witness :
    extractName ["\"ab\"".toList, "\"abcd\"".toList] ∈
      quotedOf (splitOnQuote (unescapeQuotes
        (["\"ab\"".toList, "\"abcd\"".toList] : List (List Char)).flatten)) ∧
    (∀ m ∈ quotedOf (splitOnQuote (unescapeQuotes
        (["\"ab\"".toList, "\"abcd\"".toList] : List (List Char)).flatten)),
      m.length ≤ (extractName ["\"ab\"".toList, "\"abcd\"".toList]).length) ∧
    (extractPlaceData (fun _ => none) (fun _ => none) (fun _ => none)
        { ariaLabel := some "Named Cafe", href := none, innerText := "" } 1 2 = none ↔
      (some "Named Cafe" : Option String).getD "" = "") := by
  have h := extract_name_structured_label_only (fun _ => none) (fun _ => none) (fun _ => none)
    { ariaLabel := some "Named Cafe", href := none, innerText := "" } 1 2
  have h3 := h.2.2 ["\"ab\"".toList, "\"abcd\"".toList] (by decide)
  exact ⟨h3.1, h3.2, h.1⟩

/-! ## Master index loader: `AzureStorage.load_master_search_data` -/

/-- The five columns the loader promises
(`Search, Latitude, Longitude, Time, Key`). -/
def masterColumns : List String := ["Search", "Latitude", "Longitude", "Time", "Key"]

/-- The two failure shapes of the `try` body: `ResourceNotFoundError` raised
by `download_blob` for an absent blob, or any other download/parse exception. -/
inductive LoadFailure where
  | resourceNotFound
  | otherError (msg : String)

/-- A loaded index frame: its columns and its rows. -/
structure IndexFrame where
  columns : List String
  rows : List SearchIndexEntry

/-- `AzureStorage.load_master_search_data`: the download-and-parse outcome of
the storage collaborator enters as a parameter; both `except` branches return
`pd.DataFrame(columns=columns)` — an empty frame with the five expected
columns — instead of re-raising. -/
def load_master_search_data (result : Except LoadFailure (List SearchIndexEntry)) :
    IndexFrame :=
  match result with
  | Except.ok rows => { columns := masterColumns, rows := rows }
  | Except.error _ => { columns := masterColumns, rows := [] }

/-- C10: whatever the failure (absent blob or any other read/parse error),
the loader returns an empty index with the five expected columns rather than
raising, and on that empty index every subsequent cache lookup misses, so the
next search falls through to a fresh crawl instead of crashing. -/
theorem load_master_failure_empty_index (e : LoadFailure) :
    (load_master_search_data (Except.error e)).rows = [] ∧
    (load_master_search_data (Except.error e)).columns =
      ["Search", "Latitude", "Longitude", "Time", "Key"] ∧
    (∀ (deltaLat : ℝ) (q : String) (lat lng : ℝ),
      findCachedKey (load_master_search_data (Except.error e)).rows deltaLat q lat lng =
        none) ∧
    (∀ (deltaLat : ℝ) (loadCache : String → Option (List ScoredPlace))
      (scrapeResult : List ScoredPlace) (q : String) (lat lng : ℝ),
      searchSingleTile (load_master_search_data (Except.error e)).rows deltaLat
        loadCache scrapeResult q lat lng false = (scrapeResult, false)) :=
  ⟨rfl, rfl, fun _ _ _ _ => rfl, fun _ _ _ _ _ _ => rfl⟩

end MapCrawler
